import Mathlib

/-!
Verification of the Entity Resolution Pipeline of `agimeta_edna_mvp`:
a shallow embedding of the identity matcher (`apps/identity/src/identity/matcher.py`),
the identity worker (`apps/identity-worker/src/identity_worker/worker.py`) and the
source scanner (`apps/scanner/src/scanner/scanner.py`), together with proofs about
the fingerprinting, matching, upsert, blacklist and scan-run behaviour.

Python strings are modelled by Lean `String`; the Python string methods used by the
code (`str.strip`, `str.lower`, `str.upper`, `str.isdigit`, `str.isalnum`) are
modelled on their ASCII fragment, which covers every value the code and its
configuration use.  Machine-word arithmetic inside SHA-1 is `Nat` reduced mod `2^32`.
-/

namespace Edna

/-! ## Python string primitives (ASCII fragment) -/

/-- The whitespace characters stripped by Python `str.strip()` (ASCII fragment). -/
def pyIsSpace (c : Char) : Bool :=
  c = ' ' || c = '\t' || c = '\n' || c = '\x0d' || c = '\x0b' || c = '\x0c'

/-- ASCII case folding of one character, as in Python `str.lower()`. -/
def pyLowerChar (c : Char) : Char :=
  if 65 ≤ c.toNat && c.toNat ≤ 90 then Char.ofNat (c.toNat + 32) else c

/-- ASCII upper-casing of one character, as in Python `str.upper()`. -/
def pyUpperChar (c : Char) : Char :=
  if 97 ≤ c.toNat && c.toNat ≤ 122 then Char.ofNat (c.toNat - 32) else c

/-- Python `c.isdigit()` (ASCII fragment). -/
def pyIsDigit (c : Char) : Bool :=
  48 ≤ c.toNat && c.toNat ≤ 57

/-- Python `c.isalnum()` (ASCII fragment). -/
def pyIsAlnum (c : Char) : Bool :=
  pyIsDigit c || (65 ≤ c.toNat && c.toNat ≤ 90) || (97 ≤ c.toNat && c.toNat ≤ 122)

/-- Strip leading and trailing whitespace from a character list. -/
def stripChars (l : List Char) : List Char :=
  ((l.dropWhile pyIsSpace).reverse.dropWhile pyIsSpace).reverse

/-- Python `s.strip()`. -/
def pyStrip (s : String) : String := ⟨stripChars s.data⟩

/-- Python `s.lower()`. -/
def pyLower (s : String) : String := ⟨s.data.map pyLowerChar⟩

/-- Python `s.upper()`. -/
def pyUpper (s : String) : String := ⟨s.data.map pyUpperChar⟩

/-- Python `"".join(c for c in s if pred(c))`. -/
def pyFilter (pred : Char → Bool) (s : String) : String := ⟨s.data.filter pred⟩

/-- Python `sep.join(strs)`. -/
def pyJoin (sep : String) : List String → String
  | [] => ""
  | [x] => x
  | x :: y :: rest => x ++ sep ++ pyJoin sep (y :: rest)

/-- Lexicographic (code-point) comparison of character lists: Python `str` `<=`. -/
def lexLe : List Char → List Char → Bool
  | [], _ => true
  | _ :: _, [] => false
  | a :: as, b :: bs =>
    if a.toNat < b.toNat then true
    else if b.toNat < a.toNat then false
    else lexLe as bs

/-- Python string comparison `a <= b` (code-point lexicographic). -/
def strLe (a b : String) : Bool := lexLe a.data b.data

/-- The ordering used by Python `sorted` on strings, as a `Prop` relation. -/
def SLe (a b : String) : Prop := strLe a b = true

instance : DecidableRel SLe := fun a b => by
  unfold SLe; infer_instance

/-- Python `sorted(strs)` (code-point lexicographic, total order). -/
def pySorted (l : List String) : List String := l.insertionSort SLe

/-! ## SHA-1 (as called through Python `hashlib.sha1(...).hexdigest()`) -/

/-- Truncation to a 32-bit word. -/
def m32 (x : Nat) : Nat := x % 4294967296

/-- Rotate a 32-bit word left by `n` bits. -/
def rotl (n x : Nat) : Nat := m32 (x * 2 ^ n) ||| x / 2 ^ (32 - n)

/-- SHA-1 padding: append `0x80`, zeros to 56 mod 64, and the 64-bit big-endian
bit length. -/
def padMessage (msg : List Nat) : List Nat :=
  let len := msg.length
  let padZeros := (119 - len % 64) % 64
  let bitLen := len * 8
  msg ++ [128] ++ List.replicate padZeros 0 ++
    (List.range 8).map (fun i => bitLen / 2 ^ (8 * (7 - i)) % 256)

/-- Group bytes into big-endian 32-bit words. -/
def bytesToWords : List Nat → List Nat
  | b0 :: b1 :: b2 :: b3 :: rest =>
    (((b0 * 256 + b1) * 256 + b2) * 256 + b3) :: bytesToWords rest
  | _ => []

/-- Split a word list into blocks of 16 words (a padded message is always a
whole number of blocks). -/
def wordBlocks : List Nat → List (List Nat)
  | w0 :: w1 :: w2 :: w3 :: w4 :: w5 :: w6 :: w7 ::
    w8 :: w9 :: w10 :: w11 :: w12 :: w13 :: w14 :: w15 :: rest =>
    [w0, w1, w2, w3, w4, w5, w6, w7, w8, w9, w10, w11, w12, w13, w14, w15] ::
      wordBlocks rest
  | _ => []

/-- Extend a 16-word block, appending `count` schedule words. -/
def extendWords (ws : Array Nat) : Nat → Array Nat
  | 0 => ws
  | Nat.succ k =>
    let n := ws.size
    let w := rotl 1 ((ws.getD (n - 3) 0 ^^^ ws.getD (n - 8) 0) ^^^
                     (ws.getD (n - 14) 0 ^^^ ws.getD (n - 16) 0))
    extendWords (ws.push w) k

/-- One SHA-1 round. -/
def sha1Round (st : Nat × Nat × Nat × Nat × Nat) (i w : Nat) :
    Nat × Nat × Nat × Nat × Nat :=
  let (a, b, c, d, e) := st
  let f :=
    if i < 20 then (b &&& c) ||| ((b ^^^ 4294967295) &&& d)
    else if i < 40 then b ^^^ c ^^^ d
    else if i < 60 then (b &&& c) ||| (b &&& d) ||| (c &&& d)
    else b ^^^ c ^^^ d
  let k :=
    if i < 20 then 0x5A827999
    else if i < 40 then 0x6ED9EBA1
    else if i < 60 then 0x8F1BBCDC
    else 0xCA62C1D6
  (m32 (rotl 5 a + f + e + k + w), a, rotl 30 b, c, d)

/-- Process one 512-bit block. -/
def processBlock (h : Nat × Nat × Nat × Nat × Nat) (block : List Nat) :
    Nat × Nat × Nat × Nat × Nat :=
  let ws := extendWords block.toArray 64
  let (h0, h1, h2, h3, h4) := h
  let (a, b, c, d, e) :=
    (List.range 80).foldl (fun st i => sha1Round st i (ws.getD i 0)) h
  (m32 (h0 + a), m32 (h1 + b), m32 (h2 + c), m32 (h3 + d), m32 (h4 + e))

/-- One lowercase hexadecimal digit. -/
def hexDigit (n : Nat) : Char :=
  if n < 10 then Char.ofNat (48 + n) else Char.ofNat (87 + n)

/-- A 32-bit word as 8 lowercase hex characters. -/
def hexWord (w : Nat) : String :=
  ⟨(List.range 8).map (fun i => hexDigit (w / 2 ^ (4 * (7 - i)) % 16))⟩

/-- SHA-1 of a byte sequence, rendered as a lowercase hex digest
(Python `hashlib.sha1(bytes).hexdigest()`). -/
def sha1Hex (msg : List Nat) : String :=
  let blocks := wordBlocks (bytesToWords (padMessage msg))
  let (h0, h1, h2, h3, h4) :=
    blocks.foldl processBlock (0x67452301, 0xEFCDAB89, 0x98BADCFE, 0x10325476, 0xC3D2E1F0)
  hexWord h0 ++ hexWord h1 ++ hexWord h2 ++ hexWord h3 ++ hexWord h4

/-- UTF-8 encoding of one character. -/
def utf8EncodeChar (c : Char) : List Nat :=
  let n := c.toNat
  if n < 128 then [n]
  else if n < 2048 then [192 + n / 64, 128 + n % 64]
  else if n < 65536 then [224 + n / 4096, 128 + n / 64 % 64, 128 + n % 64]
  else [240 + n / 262144, 128 + n / 4096 % 64, 128 + n / 64 % 64, 128 + n % 64]

/-- Python `s.encode("utf-8")`. -/
def utf8Encode (s : String) : List Nat := (s.data.map utf8EncodeChar).flatten

/-- `hashlib.sha1(s.encode("utf-8")).hexdigest()`. -/
def sha1HexOfString (s : String) : String := sha1Hex (utf8Encode s)

set_option maxRecDepth 10000 in
/-- Sanity anchor: the SHA-1 digest of `"abc"` is the standard test vector. -/
theorem sha1Hex_abc :
    sha1HexOfString "abc" = "a9993e364706816aba3e25717850c26c9cd0d89d" := by
  decide

/-! ## Identity matcher (`apps/identity/src/identity/matcher.py`)

Python records (`Dict[str, Any]`) appear here as `String → Option String`
(`record.get(field)`); every value the matcher handles goes through `str(value)`
first, so modelling values as strings is faithful.  The database tables touched
by the matcher are explicit values: the rule table is the list of rows in the
order the database returns them (the matcher's query has no `ORDER BY`, so that
order is whatever the store produces), and `edna_objects` is a list of rows. -/

/-- `IdentityMatcher.normalize_value` (matcher.py lines 23-41); the identical
function also appears as `IdentityWorker.normalize_value` (worker.py lines
97-115).  `none` models a `None` value. -/
def normalize_value (value : Option String) (rule : String) : String :=
  match value with
  | none => ""
  | some v =>
    let value_str := pyStrip v
    if rule = "lowercase" then pyLower value_str
    else if rule = "uppercase" then pyUpper value_str
    else if rule = "digits_only" then pyFilter pyIsDigit value_str
    else if rule = "alphanumeric_only" then pyFilter pyIsAlnum value_str
    else if rule = "trim" then pyStrip value_str
    else value_str

/-- One entry of `key_values` in `IdentityMatcher.compute_golden_id`
(matcher.py lines 52-56): `f"{field}:{normalized}"` with the normalization
policy defaulting to `"trim"`. -/
def key_value (source_data : String → Option String)
    (normalization_rules : String → Option String) (field : String) : String :=
  field ++ ":" ++ normalize_value (source_data field)
    ((normalization_rules field).getD "trim")

/-- The pre-hash key string of `IdentityMatcher.compute_golden_id`
(matcher.py lines 50-59): build `"field:normalized"` per key field, sort, join
with `"|"`. -/
def key_string (source_data : String → Option String) (key_fields : List String)
    (normalization_rules : String → Option String) : String :=
  pyJoin "|" (pySorted (key_fields.map (key_value source_data normalization_rules)))

/-- `IdentityMatcher.compute_golden_id` (matcher.py lines 43-60). -/
def compute_golden_id (source_data : String → Option String)
    (key_fields : List String) (normalization_rules : String → Option String) :
    String :=
  sha1HexOfString (key_string source_data key_fields normalization_rules)

/-- A row of `edna_identity_rules` as selected by the matcher.
`normalization_rules` models the JSONB dict via `.get`. -/
structure IdentityRule where
  rule_id : String
  rule_name : String
  object_type : String
  source_system : String
  key_fields : List String
  normalization_rules : String → Option String
  active : Bool

/-- Python truthiness of an `Optional[str]` (`if object_type:` is false for
`None` and for `""`). -/
def truthy : Option String → Bool
  | none => false
  | some s => s ≠ ""

/-- `IdentityMatcher.get_active_rules` (matcher.py lines 62-87): filter the rule
table by `active`, and by `object_type` / `source_system` when those parameters
are truthy.  The SQL query has no `ORDER BY`, so the result keeps the store's
row order. -/
def get_active_rules (store : List IdentityRule)
    (object_type source_system : Option String) : List IdentityRule :=
  store.filter (fun r =>
    r.active &&
    (!truthy object_type || r.object_type == object_type.getD "") &&
    (!truthy source_system || r.source_system == source_system.getD ""))

/-- A row of `edna_objects`.  Timestamps are abstract instants (`Nat`); the
`attributes` JSONB document is a string-valued record. -/
structure GoldenObject where
  golden_id : String
  source_system : String
  source_id : String
  object_type : String
  attributes : String → Option String
  created_at : Nat
  updated_at : Nat

/-- The `(source_system, source_id, object_type)` uniqueness key of
`edna_objects`. -/
def sameKey (r : GoldenObject) (ss sid ot : String) : Bool :=
  r.source_system == ss && r.source_id == sid && r.object_type == ot

/-- The effect of the upsert's `DO UPDATE` clause on one row: on the
conflicting key, set `attributes` and `updated_at` and nothing else. -/
def apply_update (attrs : String → Option String) (now : Nat) (ss sid ot : String)
    (r : GoldenObject) : GoldenObject :=
  if sameKey r ss sid ot then { r with attributes := attrs, updated_at := now } else r

/-- The matcher's upsert (matcher.py lines 131-152):
`INSERT ... ON CONFLICT (source_system, source_id, object_type) DO UPDATE SET
attributes = EXCLUDED.attributes, updated_at = NOW() RETURNING golden_id`.
On conflict only `attributes` and `updated_at` are set; `RETURNING` then yields
the row's stored `golden_id`.  `now` models `NOW()`. -/
def upsert_object (table : List GoldenObject) (golden_id ss sid ot : String)
    (attrs : String → Option String) (now : Nat) :
    List GoldenObject × String :=
  match table.find? (fun r => sameKey r ss sid ot) with
  | some row =>
    (table.map (apply_update attrs now ss sid ot), row.golden_id)
  | none =>
    (table ++ [{ golden_id := golden_id, source_system := ss, source_id := sid,
                 object_type := ot, attributes := attrs,
                 created_at := now, updated_at := now }],
     golden_id)

/-- `match_data = {**attributes, "source_system": ..., "source_id": ...}`
(matcher.py lines 123-127): the attributes merged with the source identifiers,
the identifiers winning on key clashes. -/
def merged_data (attributes : String → Option String) (ss sid : String) :
    String → Option String := fun f =>
  if f = "source_id" then some sid
  else if f = "source_system" then some ss
  else attributes f

/-- The golden id computed by `IdentityMatcher.match_and_upsert` before the
upsert (matcher.py lines 98-129): fallback fingerprint when no active rule
matches, otherwise the fingerprint of the first returned rule over the
attributes merged with the source identifiers.  (The defensive JSONB decoding
of `key_fields`/`normalization_rules` for dict- or string-shaped payloads is
not modelled; rules store them as a list and a dict.) -/
def matched_golden_id (rules_store : List IdentityRule)
    (source_system source_id object_type : String)
    (attributes : String → Option String) : String :=
  match get_active_rules rules_store (some object_type) (some source_system) with
  | [] => sha1HexOfString (source_system ++ "|" ++ source_id ++ "|" ++ object_type)
  | rule :: _ =>
    compute_golden_id (merged_data attributes source_system source_id)
      rule.key_fields rule.normalization_rules

/-- The rule selected by `match_and_upsert` (`rules[0]` of the unordered query
result, matcher.py lines 98-109); `none` when the fallback path is taken. -/
def selected_rule (rules_store : List IdentityRule)
    (object_type source_system : String) : Option IdentityRule :=
  (get_active_rules rules_store (some object_type) (some source_system)).head?

/-- `IdentityMatcher.match_and_upsert` (matcher.py lines 89-152): compute the
golden id and upsert, returning the new objects table and the returned id. -/
def match_and_upsert (rules_store : List IdentityRule)
    (table : List GoldenObject) (source_system source_id object_type : String)
    (attributes : String → Option String) (now : Nat) :
    List GoldenObject × String :=
  upsert_object table
    (matched_golden_id rules_store source_system source_id object_type attributes)
    source_system source_id object_type attributes now

/-- Comparison of rules by `rule_id` (the `ORDER BY rule_id` order). -/
def ruleLe (a b : IdentityRule) : Prop := SLe a.rule_id b.rule_id

instance : DecidableRel ruleLe := fun a b => by
  unfold ruleLe SLe; infer_instance

/-- `IdentityWorker.get_identity_rules` (worker.py lines 23-36): the worker's
query filters by `object_type` and `active` and sorts by `rule_id` ascending
(`ORDER BY rule_id`). -/
def get_identity_rules (store : List IdentityRule) (object_type : String) :
    List IdentityRule :=
  (store.filter (fun r => r.object_type == object_type && r.active)).insertionSort
    ruleLe

/-! ## Source scanner (`apps/scanner/src/scanner/scanner.py`) -/

/-- Glob matching of a whole string, with `*` matching any sequence and `?` any
single character: the semantics of `fnmatch.fnmatch` on POSIX for patterns
without bracket classes (the blacklist patterns of this system use only `%`,
which the scanner first rewrites to `*`).  `fnmatch`'s own `normcase` is the
identity on POSIX; the scanner lower-cases both sides itself. -/
def globMatch : List Char → List Char → Bool
  | [], s => s.isEmpty
  | '*' :: ps, s => globStar (globMatch ps) s
  | '?' :: ps, s =>
    match s with
    | [] => false
    | _ :: cs => globMatch ps cs
  | p :: ps, s =>
    match s with
    | [] => false
    | c :: cs => p == c && globMatch ps cs
where
  /-- Try the continuation on every suffix of the string (the `*` case). -/
  globStar (k : List Char → Bool) : List Char → Bool
    | [] => k []
    | c :: cs => k (c :: cs) || globStar k cs

/-- `pattern.replace('%', '*')` (scanner.py line 83). -/
def percentToStar (p : String) : String :=
  ⟨p.data.map (fun c => if c = '%' then '*' else c)⟩

/-- `Scanner.is_table_blacklisted` (scanner.py lines 76-86): `false` on an empty
pattern list; otherwise `true` iff some pattern, with `%` rewritten to `*`,
glob-matches the table name, both sides lower-cased. -/
def is_table_blacklisted (table_name : String) (blacklist : List String) : Bool :=
  blacklist.any (fun pattern =>
    globMatch (pyLower (percentToStar pattern)).data (pyLower table_name).data)

/-- The blacklist actually used while scanning a registered source
(`Scanner.scan_source_databases`, scanner.py lines 426-430): the registration's
list with `"edna_%"` appended when absent. -/
def scan_blacklist (table_blacklist : List String) : List String :=
  if table_blacklist.contains "edna_%" then table_blacklist
  else table_blacklist ++ ["edna_%"]

/-- The `metrics_json` document of a `scan_run` row (the keys the scanner
writes). -/
structure ScanMetrics where
  total_tables : Option Nat
  total_rows : Option Nat
  error : Option String
deriving DecidableEq

/-- The empty metrics document `{}`. -/
def emptyMetrics : ScanMetrics := ⟨none, none, none⟩

/-- A row of the `scan_run` table. -/
structure ScanRunRow where
  scan_run_id : Nat
  source_system : String
  status : String
  metrics : ScanMetrics
  ended_at : Option Nat
deriving DecidableEq

/-- `Scanner.create_scan_run` (scanner.py lines 222-237): insert a new row with
status `'PENDING'` and no `ended_at`, returning its generated id (modelled as a
fresh index). -/
def create_scan_run (table : List ScanRunRow) (source_system : String)
    (metrics : ScanMetrics) : List ScanRunRow × Nat :=
  let id := table.length
  (table ++ [⟨id, source_system, "PENDING", metrics, none⟩], id)

/-- `Scanner.update_scan_run_status` (scanner.py lines 239-260): set status and
metrics and stamp `ended_at = NOW()` on the addressed run. -/
def update_scan_run_status (table : List ScanRunRow) (id : Nat) (status : String)
    (metrics : ScanMetrics) (now : Nat) : List ScanRunRow :=
  table.map (fun r =>
    if r.scan_run_id == id then
      { r with status := status, metrics := metrics, ended_at := some now }
    else r)

/-- The projection of a profiled table that the scan-run metrics read. -/
structure TableProfile where
  schema : String
  table : String
  row_count : Nat

/-- A registered source database (`edna_source_databases`), projected to the
fields the scan-run bookkeeping uses. -/
structure SourceDb where
  source_db_id : String
  source_db_name : String

/-- One SQL statement against the `scan_run` table, for stating lifecycle
properties as a trace. -/
inductive RunOp where
  | create (source_system status : String)
  | update (scan_run_id : Nat) (status : String) (metrics : ScanMetrics)
deriving DecidableEq

/-- The observable outcome of one `Scanner.scan_source_databases` call:
the resulting `scan_run` table, the trace of statements issued against it, the
`update_scan_status` calls on `edna_source_databases` as
`(source_db_id, status, error)`, and the exception propagated to the caller,
if any. -/
structure ScanOutcome where
  run_table : List ScanRunRow
  run_ops : List RunOp
  source_status : List (String × String × Option String)
  raised : Option String

/-- `Scanner.scan_source_databases` (scanner.py lines 349-482), with the work
against external databases supplied as oracles: `fallbackScan` is the outcome
of profiling and persisting the default edna database (the branch taken when no
active source is registered), and `scanOutcome db` the outcome of connecting to
and profiling one registered source.  With no registered sources the function
creates a `PENDING` run for `"demo-db"` and closes it exactly once — `SUCCESS`
with `total_tables`/`total_rows`, or `FAILED` with the error, which is then
re-raised.  With registered sources it loops over them, isolating per-source
failures into `update_scan_status` calls, and never touches `scan_run`. -/
def scan_source_databases (sources : List SourceDb)
    (scanOutcome : SourceDb → Except String (List TableProfile))
    (fallbackScan : Except String (List TableProfile))
    (runTable : List ScanRunRow) (now : Nat) : ScanOutcome :=
  match sources with
  | [] =>
    let (t1, runId) := create_scan_run runTable "demo-db" emptyMetrics
    match fallbackScan with
    | .ok profiles =>
      let metrics : ScanMetrics :=
        ⟨some profiles.length, some (profiles.map (·.row_count)).sum, none⟩
      { run_table := update_scan_run_status t1 runId "SUCCESS" metrics now
        run_ops := [.create "demo-db" "PENDING", .update runId "SUCCESS" metrics]
        source_status := []
        raised := none }
    | .error e =>
      let metrics : ScanMetrics := ⟨none, none, some e⟩
      { run_table := update_scan_run_status t1 runId "FAILED" metrics now
        run_ops := [.create "demo-db" "PENDING", .update runId "FAILED" metrics]
        source_status := []
        raised := some e }
  | _ :: _ =>
    { run_table := runTable
      run_ops := []
      source_status := sources.map (fun db =>
        match scanOutcome db with
        | .ok _ => (db.source_db_id, "success", none)
        | .error e => (db.source_db_id, "failed", some e))
      raised := none }

/-! ## The string order is a linear order -/

theorem charToNat_inj {a b : Char} (h : a.toNat = b.toNat) : a = b :=
  Char.eq_of_val_eq (UInt32.ext h)

theorem lexLe_refl : ∀ l : List Char, lexLe l l = true
  | [] => rfl
  | a :: as => by simp [lexLe, lexLe_refl as]

theorem lexLe_total : ∀ a b : List Char, lexLe a b = true ∨ lexLe b a = true
  | [], _ => Or.inl rfl
  | _ :: _, [] => Or.inr rfl
  | a :: as, b :: bs => by
    rcases Nat.lt_trichotomy a.toNat b.toNat with h | h | h
    · exact Or.inl (by simp [lexLe, h])
    · rcases lexLe_total as bs with ih | ih
      · exact Or.inl (by simp [lexLe, h, ih])
      · exact Or.inr (by simp [lexLe, h.symm, ih])
    · exact Or.inr (by simp [lexLe, h])

theorem lexLe_trans : ∀ {a b c : List Char},
    lexLe a b = true → lexLe b c = true → lexLe a c = true
  | [], _, _, _, _ => rfl
  | _ :: _, [], _, h, _ => by simp [lexLe] at h
  | _ :: _, _ :: _, [], _, h => by simp [lexLe] at h
  | a :: as, b :: bs, c :: cs, h1, h2 => by
    simp only [lexLe] at h1 h2 ⊢
    by_cases hab : a.toNat < b.toNat
    · by_cases hbc : b.toNat < c.toNat
      · simp [Nat.lt_trans hab hbc]
      · by_cases hcb : c.toNat < b.toNat
        · simp [hbc, hcb] at h2
        · simp [show a.toNat < c.toNat by omega]
    · by_cases hba : b.toNat < a.toNat
      · simp [hab, hba] at h1
      · by_cases hbc : b.toNat < c.toNat
        · simp [show a.toNat < c.toNat by omega]
        · by_cases hcb : c.toNat < b.toNat
          · simp [hbc, hcb] at h2
          · simp [hab, hba] at h1
            simp [hbc, hcb] at h2
            simp [show ¬ a.toNat < c.toNat by omega, show ¬ c.toNat < a.toNat by omega]
            exact lexLe_trans h1 h2

theorem lexLe_antisymm : ∀ {a b : List Char},
    lexLe a b = true → lexLe b a = true → a = b
  | [], [], _, _ => rfl
  | [], _ :: _, _, h => by simp [lexLe] at h
  | _ :: _, [], h, _ => by simp [lexLe] at h
  | a :: as, b :: bs, h1, h2 => by
    simp only [lexLe] at h1 h2
    rcases Nat.lt_trichotomy a.toNat b.toNat with hab | hab | hab
    · simp [hab, Nat.lt_asymm hab] at h2
    · have : a = b := charToNat_inj hab
      subst this
      simp [Nat.lt_irrefl] at h1 h2
      rw [lexLe_antisymm h1 h2]
    · simp [hab, Nat.lt_asymm hab] at h1

instance : IsRefl String SLe := ⟨fun s => lexLe_refl s.data⟩

instance : IsTotal String SLe := ⟨fun a b => lexLe_total a.data b.data⟩

instance : IsTrans String SLe := ⟨fun _ _ _ h1 h2 => lexLe_trans h1 h2⟩

theorem string_data_inj {a b : String} (h : a.data = b.data) : a = b :=
  congrArg String.mk h

instance : IsAntisymm String SLe :=
  ⟨fun _ _ h1 h2 => string_data_inj (lexLe_antisymm h1 h2)⟩

instance : IsTotal IdentityRule ruleLe :=
  ⟨fun a b => lexLe_total a.rule_id.data b.rule_id.data⟩

instance : IsTrans IdentityRule ruleLe :=
  ⟨fun _ _ _ h1 h2 => lexLe_trans h1 h2⟩

/-- `pySorted` depends only on the multiset of entries. -/
theorem pySorted_eq_of_perm {l1 l2 : List String} (h : l1.Perm l2) :
    pySorted l1 = pySorted l2 :=
  List.eq_of_perm_of_sorted
    (((l1.perm_insertionSort SLe).trans h).trans (l2.perm_insertionSort SLe).symm)
    (l1.sorted_insertionSort SLe) (l2.sorted_insertionSort SLe)

/-! ## Properties of the normalizer -/

theorem toNat_ofNat_valid (n : Nat) (h : n < 55296) : (Char.ofNat n).toNat = n := by
  simp [Char.ofNat, Char.toNat, h, Nat.isValidChar, Char.ofNatAux, UInt32.toNat,
    BitVec.toNat_ofNatLt]

theorem pyIsSpace_false_of_ge (c : Char) (h : 33 ≤ c.toNat) : pyIsSpace c = false := by
  have h1 : c ≠ ' ' := fun e => absurd (e ▸ h) (by decide)
  have h2 : c ≠ '\t' := fun e => absurd (e ▸ h) (by decide)
  have h3 : c ≠ '\n' := fun e => absurd (e ▸ h) (by decide)
  have h4 : c ≠ '\x0d' := fun e => absurd (e ▸ h) (by decide)
  have h5 : c ≠ '\x0b' := fun e => absurd (e ▸ h) (by decide)
  have h6 : c ≠ '\x0c' := fun e => absurd (e ▸ h) (by decide)
  simp [pyIsSpace, h1, h2, h3, h4, h5, h6]

theorem pyIsSpace_pyLowerChar (c : Char) : pyIsSpace (pyLowerChar c) = pyIsSpace c := by
  unfold pyLowerChar
  split
  · next h =>
    simp only [Bool.and_eq_true, decide_eq_true_eq] at h
    rw [pyIsSpace_false_of_ge c (by omega),
        pyIsSpace_false_of_ge _ (by rw [toNat_ofNat_valid _ (by omega)]; omega)]
  · rfl

theorem pyIsSpace_pyUpperChar (c : Char) : pyIsSpace (pyUpperChar c) = pyIsSpace c := by
  unfold pyUpperChar
  split
  · next h =>
    simp only [Bool.and_eq_true, decide_eq_true_eq] at h
    rw [pyIsSpace_false_of_ge c (by omega),
        pyIsSpace_false_of_ge _ (by rw [toNat_ofNat_valid _ (by omega)]; omega)]
  · rfl

theorem pyIsSpace_false_of_digit (c : Char) (h : pyIsDigit c = true) :
    pyIsSpace c = false := by
  simp only [pyIsDigit, Bool.and_eq_true, decide_eq_true_eq] at h
  exact pyIsSpace_false_of_ge c (by omega)

theorem pyIsSpace_false_of_alnum (c : Char) (h : pyIsAlnum c = true) :
    pyIsSpace c = false := by
  simp only [pyIsAlnum, pyIsDigit, Bool.or_eq_true, Bool.and_eq_true,
    decide_eq_true_eq] at h
  exact pyIsSpace_false_of_ge c (by omega)

theorem head?_dropWhile_not (p : Char → Bool) (l : List Char) :
    ∀ c, (l.dropWhile p).head? = some c → p c = false := by
  induction l with
  | nil => intro c h; simp at h
  | cons a as ih =>
    intro c h
    by_cases hp : p a
    · rw [List.dropWhile_cons, if_pos hp] at h
      exact ih c h
    · rw [List.dropWhile_cons, if_neg hp] at h
      simp at h
      subst h
      exact Bool.eq_false_iff.mpr hp

theorem head?_stripChars_not (l : List Char) :
    ∀ c, (stripChars l).head? = some c → pyIsSpace c = false := by
  intro c h
  unfold stripChars at h
  rw [List.head?_reverse] at h
  set m := (l.dropWhile pyIsSpace).reverse with hm
  have hsplit : m.takeWhile pyIsSpace ++ m.dropWhile pyIsSpace = m :=
    List.takeWhile_append_dropWhile pyIsSpace m
  have h2 : m.getLast? = some c := by
    rw [← hsplit, List.getLast?_append, h]; rfl
  rw [hm, List.getLast?_reverse] at h2
  exact head?_dropWhile_not pyIsSpace l c h2

theorem getLast?_stripChars_not (l : List Char) :
    ∀ c, (stripChars l).getLast? = some c → pyIsSpace c = false := by
  intro c h
  unfold stripChars at h
  rw [List.getLast?_reverse] at h
  exact head?_dropWhile_not pyIsSpace _ c h

/-- A string with no leading and no trailing whitespace. -/
def okEnd : Option Char → Bool
  | none => true
  | some c => !pyIsSpace c

/-- No leading or trailing whitespace. -/
def noSurroundingSpace (s : String) : Bool :=
  okEnd s.data.head? && okEnd s.data.getLast?

theorem noSurroundingSpace_of (s : String)
    (hh : ∀ c, s.data.head? = some c → pyIsSpace c = false)
    (hl : ∀ c, s.data.getLast? = some c → pyIsSpace c = false) :
    noSurroundingSpace s = true := by
  unfold noSurroundingSpace okEnd
  cases h1 : s.data.head? with
  | none =>
    cases h2 : s.data.getLast? with
    | none => rfl
    | some c => simp [hl c h2]
  | some c =>
    cases h2 : s.data.getLast? with
    | none => simp [hh c h1]
    | some d => simp [hh c h1, hl d h2]

theorem noSurroundingSpace_pyStrip (v : String) :
    noSurroundingSpace (pyStrip v) = true :=
  noSurroundingSpace_of _ (head?_stripChars_not v.data) (getLast?_stripChars_not v.data)

theorem noSurroundingSpace_map (f : Char → Char)
    (hf : ∀ c, pyIsSpace (f c) = pyIsSpace c) (s : String)
    (hs : noSurroundingSpace s = true) : noSurroundingSpace ⟨s.data.map f⟩ = true := by
  apply noSurroundingSpace_of
  · intro c h
    simp only [List.head?_map] at h
    cases hh : s.data.head? with
    | none => rw [hh] at h; simp at h
    | some c0 =>
      rw [hh] at h
      simp at h
      subst h
      rw [hf]
      unfold noSurroundingSpace okEnd at hs
      rw [hh] at hs
      simp_all
  · intro c h
    simp only [List.getLast?_map] at h
    cases hh : s.data.getLast? with
    | none => rw [hh] at h; simp at h
    | some c0 =>
      rw [hh] at h
      simp at h
      subst h
      rw [hf]
      unfold noSurroundingSpace okEnd at hs
      rw [hh] at hs
      cases hx : pyIsSpace c0 <;> simp_all

theorem noSurroundingSpace_filter (p : Char → Bool)
    (hp : ∀ c, p c = true → pyIsSpace c = false) (s : String) :
    noSurroundingSpace ⟨s.data.filter p⟩ = true := by
  apply noSurroundingSpace_of
  · intro c h
    have hc : c ∈ s.data.filter p := List.mem_of_mem_head? (by rw [h]; rfl)
    exact hp c (List.mem_filter.mp hc).2
  · intro c h
    have hc : c ∈ s.data.filter p := by
      have : c ∈ (s.data.filter p).reverse :=
        List.mem_of_mem_head? (by rw [List.head?_reverse, h]; rfl)
      simpa using this
    exact hp c (List.mem_filter.mp hc).2

/-- Every output of the normalizer is free of surrounding whitespace. -/
theorem noSurroundingSpace_normalize (value : Option String) (rule : String) :
    noSurroundingSpace (normalize_value value rule) = true := by
  cases value with
  | none => rfl
  | some v =>
    show noSurroundingSpace
      (if rule = "lowercase" then pyLower (pyStrip v)
       else if rule = "uppercase" then pyUpper (pyStrip v)
       else if rule = "digits_only" then pyFilter pyIsDigit (pyStrip v)
       else if rule = "alphanumeric_only" then pyFilter pyIsAlnum (pyStrip v)
       else if rule = "trim" then pyStrip (pyStrip v)
       else pyStrip v) = true
    split_ifs
    · exact noSurroundingSpace_map pyLowerChar pyIsSpace_pyLowerChar _
        (noSurroundingSpace_pyStrip v)
    · exact noSurroundingSpace_map pyUpperChar pyIsSpace_pyUpperChar _
        (noSurroundingSpace_pyStrip v)
    · exact noSurroundingSpace_filter pyIsDigit pyIsSpace_false_of_digit _
    · exact noSurroundingSpace_filter pyIsAlnum pyIsSpace_false_of_alnum _
    · exact noSurroundingSpace_pyStrip _
    · exact noSurroundingSpace_pyStrip v

/-- Stripping is the identity on a string with no surrounding whitespace. -/
theorem stripChars_of_noSurrounding (l : List Char)
    (hh : ∀ c, l.head? = some c → pyIsSpace c = false)
    (hl : ∀ c, l.getLast? = some c → pyIsSpace c = false) :
    stripChars l = l := by
  unfold stripChars
  have h1 : l.dropWhile pyIsSpace = l := by
    cases l with
    | nil => rfl
    | cons a as =>
      rw [List.dropWhile_cons, if_neg]
      rw [hh a rfl]
      simp
  rw [h1]
  have h2 : l.reverse.dropWhile pyIsSpace = l.reverse := by
    cases hr : l.reverse with
    | nil => rfl
    | cons a as =>
      rw [List.dropWhile_cons, if_neg]
      have : l.getLast? = some a := by rw [← List.head?_reverse, hr]; rfl
      rw [hl a this]
      simp
  rw [h2, List.reverse_reverse]

theorem pyStrip_idem (v : String) : pyStrip (pyStrip v) = pyStrip v :=
  congrArg String.mk
    (stripChars_of_noSurrounding _ (head?_stripChars_not v.data)
      (getLast?_stripChars_not v.data))

/-! ## Injectivity of the key-string encoding away from the separators -/

theorem append_sep_inj {c : Char} : ∀ {a b x y : List Char},
    c ∉ a → c ∉ b → a ++ c :: x = b ++ c :: y → a = b ∧ x = y := by
  intro a
  induction a with
  | nil =>
    intro b x y _ hb h
    cases b with
    | nil => simpa using h
    | cons d ds =>
      simp only [List.nil_append, List.cons_append, List.cons.injEq] at h
      exact absurd (h.1 ▸ List.mem_cons_self d ds) hb
  | cons e es ih =>
    intro b x y ha hb h
    cases b with
    | nil =>
      simp only [List.nil_append, List.cons_append, List.cons.injEq] at h
      exact absurd (h.1.symm ▸ List.mem_cons_self e es) ha
    | cons d ds =>
      simp only [List.cons_append, List.cons.injEq] at h
      obtain ⟨rfl, h2⟩ := h
      have := ih (fun hx => ha (List.mem_cons_of_mem _ hx))
        (fun hx => hb (List.mem_cons_of_mem _ hx)) h2
      exact ⟨by rw [this.1], this.2⟩

theorem data_append3 (f v : String) (c : Char) :
    (f ++ String.mk [c] ++ v).data = f.data ++ c :: v.data := by
  simp [String.data_append]

/-- The `"field:value"` encoding is injective when field names contain no
colon. -/
theorem field_colon_inj {f1 f2 v1 v2 : String}
    (h1 : ':' ∉ f1.data) (h2 : ':' ∉ f2.data)
    (h : f1 ++ ":" ++ v1 = f2 ++ ":" ++ v2) : f1 = f2 ∧ v1 = v2 := by
  have hd : f1.data ++ ':' :: v1.data = f2.data ++ ':' :: v2.data := by
    have := congrArg String.data h
    simpa [String.data_append] using this
  obtain ⟨ha, hb⟩ := append_sep_inj h1 h2 hd
  exact ⟨string_data_inj ha, string_data_inj hb⟩

/-- `pyJoin "|"` is injective on equally long lists of `'|'`-free strings. -/
theorem pyJoin_inj : ∀ {l1 l2 : List String}, l1.length = l2.length →
    (∀ s ∈ l1, '|' ∉ s.data) → (∀ s ∈ l2, '|' ∉ s.data) →
    pyJoin "|" l1 = pyJoin "|" l2 → l1 = l2 := by
  intro l1
  induction l1 with
  | nil =>
    intro l2 hlen _ _ _
    cases l2 with
    | nil => rfl
    | cons _ _ => simp at hlen
  | cons s1 rest1 ih =>
    intro l2 hlen hf1 hf2 hj
    cases l2 with
    | nil => simp at hlen
    | cons s2 rest2 =>
      cases rest1 with
      | nil =>
        cases rest2 with
        | nil => simpa [pyJoin] using hj
        | cons t2 rr2 => simp at hlen
      | cons t1 rr1 =>
        cases rest2 with
        | nil => simp at hlen
        | cons t2 rr2 =>
          have hd : s1.data ++ '|' :: (pyJoin "|" (t1 :: rr1)).data
              = s2.data ++ '|' :: (pyJoin "|" (t2 :: rr2)).data := by
            have := congrArg String.data hj
            simpa [pyJoin, String.data_append, List.append_assoc] using this
          obtain ⟨ha, hb⟩ := append_sep_inj
            (hf1 s1 (List.mem_cons_self _ _))
            (hf2 s2 (List.mem_cons_self _ _)) hd
          have hrest : pyJoin "|" (t1 :: rr1) = pyJoin "|" (t2 :: rr2) :=
            string_data_inj hb
          have := @ih (t2 :: rr2) (by simpa using hlen)
            (fun s hs => hf1 s (List.mem_cons_of_mem _ hs))
            (fun s hs => hf2 s (List.mem_cons_of_mem _ hs)) hrest
          rw [string_data_inj ha, this]

theorem data_key_value (r nr : String → Option String) (f : String) :
    (key_value r nr f).data
      = f.data ++ ':' :: (normalize_value (r f) ((nr f).getD "trim")).data := by
  simp [key_value, String.data_append]

/-- Sensitivity of the pre-hash key string: away from the separator characters,
changing exactly one normalized key-field value changes the key string. -/
theorem key_string_sensitive
    (kf : List String) (nr r1 r2 : String → Option String) (fd : String)
    (hfd : fd ∈ kf)
    (hname : ∀ f ∈ kf, ':' ∉ f.data ∧ '|' ∉ f.data)
    (hval1 : ∀ f ∈ kf, '|' ∉ (normalize_value (r1 f) ((nr f).getD "trim")).data)
    (hval2 : ∀ f ∈ kf, '|' ∉ (normalize_value (r2 f) ((nr f).getD "trim")).data)
    (hdiff : normalize_value (r1 fd) ((nr fd).getD "trim")
      ≠ normalize_value (r2 fd) ((nr fd).getD "trim"))
    (hsame : ∀ g ∈ kf, g ≠ fd →
      normalize_value (r1 g) ((nr g).getD "trim")
        = normalize_value (r2 g) ((nr g).getD "trim")) :
    key_string r1 kf nr ≠ key_string r2 kf nr := by
  intro h
  unfold key_string at h
  set kv1 := kf.map (key_value r1 nr) with hkv1
  set kv2 := kf.map (key_value r2 nr) with hkv2
  have hfree1 : ∀ s ∈ kv1, '|' ∉ s.data := by
    intro s hs
    obtain ⟨f, hf, rfl⟩ := List.mem_map.mp hs
    rw [data_key_value]
    intro hmem
    rcases List.mem_append.mp hmem with hx | hx
    · exact (hname f hf).2 hx
    · rcases List.mem_cons.mp hx with hx | hx
      · exact absurd hx (by decide)
      · exact hval1 f hf hx
  have hfree2 : ∀ s ∈ kv2, '|' ∉ s.data := by
    intro s hs
    obtain ⟨f, hf, rfl⟩ := List.mem_map.mp hs
    rw [data_key_value]
    intro hmem
    rcases List.mem_append.mp hmem with hx | hx
    · exact (hname f hf).2 hx
    · rcases List.mem_cons.mp hx with hx | hx
      · exact absurd hx (by decide)
      · exact hval2 f hf hx
  have hsorted_eq : pySorted kv1 = pySorted kv2 := by
    apply pyJoin_inj _ _ _ h
    · show (List.insertionSort SLe kv1).length = (List.insertionSort SLe kv2).length
      rw [(kv1.perm_insertionSort SLe).length_eq,
        (kv2.perm_insertionSort SLe).length_eq]
      simp [hkv1, hkv2]
    · exact fun s hs => hfree1 s ((kv1.perm_insertionSort SLe).mem_iff.mp hs)
    · exact fun s hs => hfree2 s ((kv2.perm_insertionSort SLe).mem_iff.mp hs)
  have hperm : kv1.Perm kv2 := by
    have p1 := kv1.perm_insertionSort SLe
    have p2 := kv2.perm_insertionSort SLe
    rw [show List.insertionSort SLe kv1 = pySorted kv1 from rfl, hsorted_eq] at p1
    exact p1.symm.trans p2
  have hcnt := hperm.count_eq (key_value r1 nr fd)
  have h1 : List.count (key_value r1 nr fd) kv1
      = List.countP (fun g => key_value r1 nr g == key_value r1 nr fd) kf := by
    rw [hkv1, List.count_eq_countP, List.countP_map]
    rfl
  have h2 : List.countP (fun g => key_value r1 nr g == key_value r1 nr fd) kf
      = List.countP (fun g => g == fd) kf := by
    apply List.countP_congr
    intro g hg
    simp only [beq_iff_eq]
    constructor
    · intro he
      simp only [key_value] at he
      exact (field_colon_inj (hname g hg).1 (hname fd hfd).1 he).1
    · rintro rfl; rfl
  have h3 : 0 < List.countP (fun g => g == fd) kf := by
    rw [← List.count_eq_countP]
    exact List.count_pos_iff.mpr hfd
  have h4 : List.count (key_value r1 nr fd) kv2 = 0 := by
    rw [hkv2, List.count_eq_countP, List.countP_map]
    apply List.countP_eq_zero.mpr
    intro g hg
    simp only [Function.comp, beq_iff_eq]
    intro he
    by_cases hgd : g = fd
    · subst hgd
      simp only [key_value] at he
      exact hdiff ((field_colon_inj (hname g hg).1 (hname g hg).1 he).2).symm
    · have heq : key_value r2 nr g = key_value r1 nr g := by
        simp only [key_value, hsame g hg hgd]
      rw [heq] at he
      simp only [key_value] at he
      exact hgd (field_colon_inj (hname g hg).1 (hname fd hfd).1 he).1
  omega

/-! ## Properties of the upsert -/

/-- The number of `edna_objects` rows with the given uniqueness key. -/
def keyCount (table : List GoldenObject) (ss sid ot : String) : Nat :=
  (table.filter (fun r => sameKey r ss sid ot)).length

/-- The stored golden ids of the rows with the given key. -/
def storedIds (table : List GoldenObject) (ss sid ot : String) : List String :=
  (table.filter (fun r => sameKey r ss sid ot)).map (fun r => r.golden_id)

theorem sameKey_apply_update (attrs : String → Option String) (now : Nat)
    (ss sid ot : String) (r : GoldenObject) :
    sameKey (apply_update attrs now ss sid ot r) ss sid ot = sameKey r ss sid ot := by
  unfold apply_update
  split <;> rfl

theorem golden_id_apply_update (attrs : String → Option String) (now : Nat)
    (ss sid ot : String) (r : GoldenObject) :
    (apply_update attrs now ss sid ot r).golden_id = r.golden_id := by
  unfold apply_update
  split <;> rfl

theorem keyCount_map_update (table : List GoldenObject)
    (attrs : String → Option String) (now : Nat) (ss sid ot : String) :
    keyCount (table.map (apply_update attrs now ss sid ot)) ss sid ot
      = keyCount table ss sid ot := by
  unfold keyCount
  induction table with
  | nil => rfl
  | cons r rs ih =>
    simp only [List.map_cons, List.filter_cons, sameKey_apply_update]
    cases h : sameKey r ss sid ot <;> simp [h, ih]

theorem storedIds_map_update (table : List GoldenObject)
    (attrs : String → Option String) (now : Nat) (ss sid ot : String) :
    storedIds (table.map (apply_update attrs now ss sid ot)) ss sid ot
      = storedIds table ss sid ot := by
  unfold storedIds
  induction table with
  | nil => rfl
  | cons r rs ih =>
    simp only [List.map_cons, List.filter_cons, sameKey_apply_update]
    cases h : sameKey r ss sid ot <;> simp [h, ih, golden_id_apply_update]

theorem find?_map_update (table : List GoldenObject)
    (attrs : String → Option String) (now : Nat) (ss sid ot : String) :
    (table.map (apply_update attrs now ss sid ot)).find? (fun r => sameKey r ss sid ot)
      = (table.find? (fun r => sameKey r ss sid ot)).map (apply_update attrs now ss sid ot) := by
  induction table with
  | nil => rfl
  | cons r rs ih =>
    simp only [List.map_cons, List.find?_cons, sameKey_apply_update]
    cases h : sameKey r ss sid ot <;> simp [h, ih]

theorem keyCount_pos_of_find? {table : List GoldenObject} {ss sid ot : String}
    {row : GoldenObject}
    (h : table.find? (fun r => sameKey r ss sid ot) = some row) :
    0 < keyCount table ss sid ot := by
  unfold keyCount
  have hmem : row ∈ table := List.mem_of_find?_eq_some h
  have hkey := List.find?_some h
  have hmf : row ∈ table.filter (fun r => sameKey r ss sid ot) :=
    List.mem_filter.mpr ⟨hmem, hkey⟩
  exact List.length_pos.mpr (List.ne_nil_of_mem hmf)

theorem keyCount_zero_of_find?_none {table : List GoldenObject} {ss sid ot : String}
    (h : table.find? (fun r => sameKey r ss sid ot) = none) :
    keyCount table ss sid ot = 0 := by
  unfold keyCount
  rw [List.filter_eq_nil_iff.mpr]
  · rfl
  · intro r hr
    exact List.find?_eq_none.mp h r hr

theorem sameKey_self (ss sid ot : String) (gid : String)
    (attrs : String → Option String) (c u : Nat) :
    sameKey ⟨gid, ss, sid, ot, attrs, c, u⟩ ss sid ot = true := by
  simp [sameKey]

/-! ## Properties of the rule selection -/

theorem get_active_rules_pairwise (store : List IdentityRule) (ot ss : Option String)
    (h : store.Pairwise ruleLe) : (get_active_rules store ot ss).Pairwise ruleLe :=
  h.filter _

/-- When the database happens to return the rule table sorted ascending by
`rule_id`, the selected rule has a minimal `rule_id` among the active matching
rules. -/
theorem selected_rule_min_of_sorted (store : List IdentityRule) (ot ss : String)
    (hsorted : store.Pairwise ruleLe) :
    ∀ sel, selected_rule store ot ss = some sel →
      ∀ q ∈ get_active_rules store (some ot) (some ss),
        strLe sel.rule_id q.rule_id = true := by
  intro sel hsel q hq
  have hp : (get_active_rules store (some ot) (some ss)).Pairwise ruleLe :=
    get_active_rules_pairwise store _ _ hsorted
  cases hfl : get_active_rules store (some ot) (some ss) with
  | nil =>
    rw [selected_rule, hfl] at hsel
    simp at hsel
  | cons a rest =>
    rw [selected_rule, hfl] at hsel
    simp at hsel
    subst hsel
    rw [hfl] at hq hp
    rcases List.mem_cons.mp hq with rfl | hq2
    · exact lexLe_refl _
    · exact (List.pairwise_cons.mp hp).1 q hq2

/-- The worker's rule list is sorted ascending by `rule_id`. -/
theorem get_identity_rules_sorted (store : List IdentityRule) (ot : String) :
    (get_identity_rules store ot).Pairwise ruleLe :=
  List.sorted_insertionSort ruleLe _

/-! ## Properties of the blacklist matcher -/

theorem globStar_any (s : List Char) : globMatch.globStar (globMatch []) s = true := by
  induction s with
  | nil => rfl
  | cons c cs ih =>
    have h : globMatch.globStar (globMatch []) (c :: cs)
        = (globMatch [] (c :: cs) || globMatch.globStar (globMatch []) cs) := rfl
    rw [h, ih]
    simp

theorem globMatch_star_any (s : List Char) : globMatch ['*'] s = true :=
  globStar_any s

theorem globMatch_edna (r : List Char) :
    globMatch ("edna_*".data) ('e' :: 'd' :: 'n' :: 'a' :: '_' :: r) = true := by
  have h : globMatch ("edna_*".data) ('e' :: 'd' :: 'n' :: 'a' :: '_' :: r)
      = globMatch ['*'] r := rfl
  rw [h]
  exact globMatch_star_any r

/-- The row inserted by the upsert when the key is absent. -/
def inserted_row (gid ss sid ot : String) (attrs : String → Option String)
    (now : Nat) : GoldenObject :=
  { golden_id := gid, source_system := ss, source_id := sid, object_type := ot,
    attributes := attrs, created_at := now, updated_at := now }

theorem keyCount_append (t1 t2 : List GoldenObject) (ss sid ot : String) :
    keyCount (t1 ++ t2) ss sid ot = keyCount t1 ss sid ot + keyCount t2 ss sid ot := by
  unfold keyCount
  rw [List.filter_append, List.length_append]

theorem storedIds_append (t1 t2 : List GoldenObject) (ss sid ot : String) :
    storedIds (t1 ++ t2) ss sid ot = storedIds t1 ss sid ot ++ storedIds t2 ss sid ot := by
  unfold storedIds
  rw [List.filter_append, List.map_append]

theorem keyCount_inserted (gid ss sid ot : String) (attrs : String → Option String)
    (now : Nat) : keyCount [inserted_row gid ss sid ot attrs now] ss sid ot = 1 := by
  unfold keyCount inserted_row
  rw [List.filter_cons, if_pos (sameKey_self ss sid ot gid attrs now now)]
  rfl

theorem storedIds_inserted (gid ss sid ot : String) (attrs : String → Option String)
    (now : Nat) : storedIds [inserted_row gid ss sid ot attrs now] ss sid ot = [gid] := by
  unfold storedIds inserted_row
  rw [List.filter_cons, if_pos (sameKey_self ss sid ot gid attrs now now)]
  rfl

theorem storedIds_nil_of_find?_none {table : List GoldenObject} {ss sid ot : String}
    (h : table.find? (fun r => sameKey r ss sid ot) = none) :
    storedIds table ss sid ot = [] := by
  unfold storedIds
  rw [List.filter_eq_nil_iff.mpr (fun r hr => List.find?_eq_none.mp h r hr)]
  rfl

/-- Any table whose name starts with the `edna_` prefix is blacklisted once the
scanner has appended its implicit `edna_%` pattern. -/
theorem edna_blacklisted_in_scan (t : String) (bl : List String) (r : List Char)
    (ht : t.data = 'e' :: 'd' :: 'n' :: 'a' :: '_' :: r) :
    is_table_blacklisted t (scan_blacklist bl) = true := by
  unfold is_table_blacklisted
  rw [List.any_eq_true]
  refine ⟨"edna_%", ?_, ?_⟩
  · unfold scan_blacklist
    split
    · next hc => simpa using hc
    · exact List.mem_append.mpr (Or.inr (List.mem_singleton.mpr rfl))
  · have h1 : (pyLower (percentToStar "edna_%")).data = "edna_*".data := rfl
    have h2 : (pyLower t).data = 'e' :: 'd' :: 'n' :: 'a' :: '_' :: r.map pyLowerChar := by
      show t.data.map pyLowerChar = _
      rw [ht]
      rfl
    rw [h1, h2]
    exact globMatch_edna (r.map pyLowerChar)

/-! ## Concrete records, rules and rows used by the claim theorems -/

/-- An empty attributes document (`{}`). -/
def exAttrs : String → Option String := fun _ => none

/-- An empty normalization-rules document (`{}`): every field defaults to
`"trim"`. -/
def nrEmpty : String → Option String := fun _ => none

/-- The record of end-to-end scenario 1. -/
def rec3 : String → Option String := fun f =>
  if f = "email" then some "Test@Example.COM"
  else if f = "phone" then some "(555) 123-4567"
  else none

/-- The normalization rules of end-to-end scenario 1. -/
def pol3 : String → Option String := fun f =>
  if f = "email" then some "lowercase"
  else if f = "phone" then some "digits_only"
  else none

/-- First record of the fingerprint-collision pair. -/
def rc1 : String → Option String := fun f =>
  if f = "a" then some "a|a:b"
  else if f = "a:a|a" then some "b|a:a"
  else none

/-- Second record of the fingerprint-collision pair: the normalized value of
key field `"a"` differs from `rc1`, that of key field `"a:a|a"` agrees. -/
def rc2 : String → Option String := fun f =>
  if f = "a" then some "b|a:a"
  else if f = "a:a|a" then some "b|a:a"
  else none

/-- A separator-free record. -/
def rw1 : String → Option String := fun f =>
  if f = "email" then some "x@y"
  else if f = "phone" then some "1"
  else none

/-- A separator-free record differing from `rw1` only in `email`. -/
def rw2 : String → Option String := fun f =>
  if f = "email" then some "z@y"
  else if f = "phone" then some "1"
  else none

/-- A pre-existing golden object row whose stored `golden_id` is `"legacy"`. -/
def oldRow : GoldenObject :=
  { golden_id := "legacy", source_system := "erp", source_id := "INV-1",
    object_type := "invoice", attributes := exAttrs, created_at := 0, updated_at := 0 }

/-- An active rule for `(customer, demo)` with the smaller `rule_id`. -/
def ruleA : IdentityRule :=
  { rule_id := "rule-1", rule_name := "Rule 1", object_type := "customer",
    source_system := "demo", key_fields := ["b"], normalization_rules := nrEmpty,
    active := true }

/-- An active rule for `(customer, demo)` with the larger `rule_id`. -/
def ruleB : IdentityRule :=
  { rule_id := "rule-2", rule_name := "Rule 2", object_type := "customer",
    source_system := "demo", key_fields := ["a"], normalization_rules := nrEmpty,
    active := true }

/-- One registered source database. -/
def oneSource : SourceDb := { source_db_id := "db-1", source_db_name := "primary" }

/-! ## Claim theorems -/

/-- C3: `compute_golden_id` applied to the record
`{"email": "Test@Example.COM", "phone": "(555) 123-4567"}` with key fields
`["email", "phone"]` and policies `{email: lowercase, phone: digits_only}`
returns exactly the lowercase-hex SHA-1 digest of
`"email:test@example.com|phone:5551234567"`. -/
theorem scenario1_fingerprint :
    compute_golden_id rec3 ["email", "phone"] pol3
      = sha1HexOfString "email:test@example.com|phone:5551234567" := by
  unfold compute_golden_id
  exact congrArg sha1HexOfString (by decide)

/-- C4: for every record, key-field list and policy map, `compute_golden_id` is
deterministic, and its result is invariant under any permutation of the
key-field list. -/
theorem fingerprint_det_perm (sd nr : String → Option String)
    (kf kf2 : List String) (hperm : kf.Perm kf2) :
    compute_golden_id sd kf nr = compute_golden_id sd kf nr
    ∧ compute_golden_id sd kf nr = compute_golden_id sd kf2 nr := by
  refine ⟨rfl, ?_⟩
  unfold compute_golden_id key_string
  rw [pySorted_eq_of_perm (hperm.map (key_value sd nr))]

/-- Witness for C4 at the scenario-1 record with both orders of the key
fields. -/
theorem fingerprint_det_perm_witness :
    compute_golden_id rec3 ["email", "phone"] pol3
      = compute_golden_id rec3 ["email", "phone"] pol3
    ∧ compute_golden_id rec3 ["email", "phone"] pol3
      = compute_golden_id rec3 ["phone", "email"] pol3 :=
  fingerprint_det_perm rec3 pol3 ["email", "phone"] ["phone", "email"]
    (List.Perm.swap "phone" "email" [])

/-- C5 counterexample: two records whose normalized value of key field `"a"`
differs while that of the other key field `"a:a|a"` agrees, yet
`compute_golden_id` gives both the same fingerprint (the separator characters
`:` and `|` inside field names and values make the encoding collide). -/
theorem fingerprint_sensitivity_cex :
    compute_golden_id rc1 ["a", "a:a|a"] nrEmpty
      = compute_golden_id rc2 ["a", "a:a|a"] nrEmpty
    ∧ normalize_value (rc1 "a") ((nrEmpty "a").getD "trim")
        ≠ normalize_value (rc2 "a") ((nrEmpty "a").getD "trim")
    ∧ normalize_value (rc1 "a:a|a") ((nrEmpty "a:a|a").getD "trim")
        = normalize_value (rc2 "a:a|a") ((nrEmpty "a:a|a").getD "trim") := by
  refine ⟨?_, by decide, by decide⟩
  unfold compute_golden_id
  exact congrArg sha1HexOfString (by decide)

/-- C5 amended: when no key-field name contains `:` or `|` and no normalized
key-field value contains `|`, records differing in the normalized value of one
key field (all others equal) receive different pre-hash key strings — the
fingerprints are the SHA-1 digests of those strings, so they differ unless
SHA-1 itself collides on them. -/
theorem fingerprint_sensitivity_amended
    (kf : List String) (nr r1 r2 : String → Option String) (fd : String)
    (hfd : fd ∈ kf)
    (hname : ∀ f ∈ kf, ':' ∉ f.data ∧ '|' ∉ f.data)
    (hval1 : ∀ f ∈ kf, '|' ∉ (normalize_value (r1 f) ((nr f).getD "trim")).data)
    (hval2 : ∀ f ∈ kf, '|' ∉ (normalize_value (r2 f) ((nr f).getD "trim")).data)
    (hdiff : normalize_value (r1 fd) ((nr fd).getD "trim")
      ≠ normalize_value (r2 fd) ((nr fd).getD "trim"))
    (hsame : ∀ g ∈ kf, g ≠ fd →
      normalize_value (r1 g) ((nr g).getD "trim")
        = normalize_value (r2 g) ((nr g).getD "trim")) :
    key_string r1 kf nr ≠ key_string r2 kf nr
    ∧ compute_golden_id r1 kf nr = sha1HexOfString (key_string r1 kf nr)
    ∧ compute_golden_id r2 kf nr = sha1HexOfString (key_string r2 kf nr) :=
  ⟨key_string_sensitive kf nr r1 r2 fd hfd hname hval1 hval2 hdiff hsame, rfl, rfl⟩

/-- Witness for the amended C5 at a separator-free pair of records. -/
theorem fingerprint_sensitivity_amended_witness :
    key_string rw1 ["email", "phone"] nrEmpty ≠ key_string rw2 ["email", "phone"] nrEmpty
    ∧ compute_golden_id rw1 ["email", "phone"] nrEmpty
        = sha1HexOfString (key_string rw1 ["email", "phone"] nrEmpty)
    ∧ compute_golden_id rw2 ["email", "phone"] nrEmpty
        = sha1HexOfString (key_string rw2 ["email", "phone"] nrEmpty) :=
  fingerprint_sensitivity_amended ["email", "phone"] nrEmpty rw1 rw2 "email"
    (by decide) (by decide) (by decide) (by decide) (by decide) (by decide)

/-- C10: the normalizer first strips the stringified value, so no output has
surrounding whitespace (e.g. `normalize_value (some " A ") "lowercase" = "a"`),
and an unrecognized policy returns exactly the stripped string, identical to
the `"trim"` policy. -/
theorem normalizer_trims :
    (∀ (v rule : String), noSurroundingSpace (normalize_value (some v) rule) = true)
    ∧ normalize_value (some " A ") "lowercase" = "a"
    ∧ (∀ (v rule : String),
        rule ∉ (["lowercase", "uppercase", "digits_only", "alphanumeric_only",
                 "trim"] : List String) →
        normalize_value (some v) rule = pyStrip v
        ∧ normalize_value (some v) rule = normalize_value (some v) "trim") := by
  refine ⟨fun v rule => noSurroundingSpace_normalize (some v) rule, by decide, ?_⟩
  intro v rule h
  simp only [List.mem_cons, List.not_mem_nil, or_false, not_or] at h
  obtain ⟨h1, h2, h3, h4, h5⟩ := h
  constructor
  · show (if rule = "lowercase" then pyLower (pyStrip v)
       else if rule = "uppercase" then pyUpper (pyStrip v)
       else if rule = "digits_only" then pyFilter pyIsDigit (pyStrip v)
       else if rule = "alphanumeric_only" then pyFilter pyIsAlnum (pyStrip v)
       else if rule = "trim" then pyStrip (pyStrip v)
       else pyStrip v) = pyStrip v
    rw [if_neg h1, if_neg h2, if_neg h3, if_neg h4, if_neg h5]
  · show (if rule = "lowercase" then pyLower (pyStrip v)
       else if rule = "uppercase" then pyUpper (pyStrip v)
       else if rule = "digits_only" then pyFilter pyIsDigit (pyStrip v)
       else if rule = "alphanumeric_only" then pyFilter pyIsAlnum (pyStrip v)
       else if rule = "trim" then pyStrip (pyStrip v)
       else pyStrip v) = pyStrip (pyStrip v)
    rw [if_neg h1, if_neg h2, if_neg h3, if_neg h4, if_neg h5, pyStrip_idem]

/-- Witness for C10 with an unrecognized policy. -/
theorem normalizer_trims_witness :
    normalize_value (some " A ") "unknown" = pyStrip " A "
    ∧ normalize_value (some " A ") "unknown" = normalize_value (some " A ") "trim" :=
  normalizer_trims.2.2 " A " "unknown" (by decide)

set_option maxRecDepth 10000 in
/-- C1 counterexample: on a conflicting upsert the stored `golden_id` is NOT
overwritten with the newly computed fingerprint and the returned id is the old
stored one, contradicting the claim that both are the new fingerprint. -/
theorem upsert_overwrites_golden_id_cex :
    (match_and_upsert [] [oldRow] "erp" "INV-1" "invoice" exAttrs 5).2 = "legacy"
    ∧ storedIds (match_and_upsert [] [oldRow] "erp" "INV-1" "invoice" exAttrs 5).1
        "erp" "INV-1" "invoice" = ["legacy"]
    ∧ matched_golden_id [] "erp" "INV-1" "invoice" exAttrs
        = sha1HexOfString ("erp" ++ "|" ++ "INV-1" ++ "|" ++ "invoice")
    ∧ "legacy" ≠ sha1HexOfString ("erp" ++ "|" ++ "INV-1" ++ "|" ++ "invoice") := by
  refine ⟨rfl, rfl, rfl, ?_⟩
  decide

/-- C1 amended: the upsert inserts a row carrying the newly computed
fingerprint when the key is absent and returns it; on conflict it maps
`apply_update` over the table — overwriting `attributes` and `updated_at` while
leaving `golden_id` and `created_at` unchanged — and returns the stored row's
existing `golden_id`. -/
theorem upsert_conflict_behaviour (rules_store : List IdentityRule)
    (table : List GoldenObject) (ss sid ot : String)
    (attrs : String → Option String) (now : Nat) :
    (table.find? (fun r => sameKey r ss sid ot) = none →
      match_and_upsert rules_store table ss sid ot attrs now
        = (table ++ [{ golden_id := matched_golden_id rules_store ss sid ot attrs,
                       source_system := ss, source_id := sid, object_type := ot,
                       attributes := attrs, created_at := now, updated_at := now }],
           matched_golden_id rules_store ss sid ot attrs))
    ∧ (∀ row, table.find? (fun r => sameKey r ss sid ot) = some row →
        match_and_upsert rules_store table ss sid ot attrs now
          = (table.map (apply_update attrs now ss sid ot), row.golden_id))
    ∧ (∀ r, (apply_update attrs now ss sid ot r).golden_id = r.golden_id
        ∧ (apply_update attrs now ss sid ot r).created_at = r.created_at
        ∧ (sameKey r ss sid ot = true →
            (apply_update attrs now ss sid ot r).attributes = attrs
            ∧ (apply_update attrs now ss sid ot r).updated_at = now)) := by
  refine ⟨?_, ?_, ?_⟩
  · intro h
    unfold match_and_upsert upsert_object
    rw [h]
  · intro row h
    unfold match_and_upsert upsert_object
    rw [h]
  · intro r
    refine ⟨golden_id_apply_update attrs now ss sid ot r, ?_, ?_⟩
    · unfold apply_update
      split <;> rfl
    · intro hk
      unfold apply_update
      rw [if_pos hk]
      exact ⟨rfl, rfl⟩

/-- Witness for the amended C1: upserting onto the existing `oldRow` returns
its stored id and only rewrites attributes and `updated_at`. -/
theorem upsert_conflict_behaviour_witness :
    match_and_upsert [] [oldRow] "erp" "INV-1" "invoice" exAttrs 5
      = ([oldRow].map (apply_update exAttrs 5 "erp" "INV-1" "invoice"),
         oldRow.golden_id) :=
  (upsert_conflict_behaviour [] [oldRow] "erp" "INV-1" "invoice" exAttrs 5).2.1
    oldRow rfl

/-- C2 counterexample: with the rule store returning `[ruleB, ruleA]` (no
`ORDER BY` in the matcher's query), `match_and_upsert` selects `ruleB`
(`rule_id = "rule-2"`) although the active matching rule `ruleA` has the
strictly smaller `rule_id = "rule-1"`; the fingerprint is computed from
`ruleB`'s key fields. -/
theorem lowest_rule_id_selection_cex :
    (selected_rule [ruleB, ruleA] "customer" "demo").map (fun r => r.rule_id)
      = some "rule-2"
    ∧ ruleA ∈ get_active_rules [ruleB, ruleA] (some "customer") (some "demo")
    ∧ ruleA.rule_id = "rule-1"
    ∧ strLe "rule-1" "rule-2" = true
    ∧ "rule-1" ≠ "rule-2"
    ∧ matched_golden_id [ruleB, ruleA] "demo" "C-1" "customer" exAttrs
        = compute_golden_id (merged_data exAttrs "demo" "C-1")
            ruleB.key_fields ruleB.normalization_rules := by
  refine ⟨rfl, ?_, rfl, by decide, by decide, rfl⟩
  show ruleA ∈ [ruleB, ruleA]
  exact List.mem_cons_of_mem _ (List.mem_cons_self _ _)

/-- C2 amended: the matcher selects the head of the query result in the order
the store returns it (its query has no `ORDER BY`); when the store order is
sorted ascending by `rule_id` the selected rule is minimal, and the worker's
`get_identity_rules` does sort by `rule_id` ascending. -/
theorem rule_selection_amended :
    (∀ store ot ss, selected_rule store ot ss
        = (get_active_rules store (some ot) (some ss)).head?)
    ∧ (∀ (store : List IdentityRule) (ot ss : String), store.Pairwise ruleLe →
        ∀ sel, selected_rule store ot ss = some sel →
          ∀ q ∈ get_active_rules store (some ot) (some ss),
            strLe sel.rule_id q.rule_id = true)
    ∧ (∀ store ot, (get_identity_rules store ot).Pairwise ruleLe) := by
  refine ⟨fun _ _ _ => rfl, ?_, get_identity_rules_sorted⟩
  intro store ot ss hs sel hsel q hq
  exact selected_rule_min_of_sorted store ot ss hs sel hsel q hq

/-- Witness for the amended C2 on the sorted store `[ruleA, ruleB]`. -/
theorem rule_selection_amended_witness :
    strLe ruleA.rule_id ruleB.rule_id = true :=
  rule_selection_amended.2.1 [ruleA, ruleB] "customer" "demo" (by decide) ruleA rfl
    ruleB (List.mem_cons_of_mem _ (List.mem_cons_self _ _))

set_option maxRecDepth 10000 in
/-- C6 counterexample: with no active rule for `(invoice, erp)` but a
pre-existing row for the source tuple, `match_and_upsert` returns the stored
`"legacy"` id, not the fallback SHA-1 digest of `"erp|INV-1|invoice"`. -/
theorem fallback_return_cex :
    get_active_rules [] (some "invoice") (some "erp") = []
    ∧ (match_and_upsert [] [oldRow] "erp" "INV-1" "invoice" exAttrs 5).2 = "legacy"
    ∧ "legacy" ≠ sha1HexOfString ("erp" ++ "|" ++ "INV-1" ++ "|" ++ "invoice") := by
  refine ⟨rfl, rfl, ?_⟩
  decide

/-- C6 amended: with no active rule the computed fallback fingerprint is the
SHA-1 hex digest of `"sourceSystem|sourceId|objectType"`, and it is both
returned and stored whenever no row yet exists for the source tuple. -/
theorem fallback_digest_amended (rules_store : List IdentityRule)
    (table : List GoldenObject) (ss sid ot : String)
    (attrs : String → Option String) (now : Nat)
    (hnorule : get_active_rules rules_store (some ot) (some ss) = [])
    (hfresh : table.find? (fun r => sameKey r ss sid ot) = none) :
    matched_golden_id rules_store ss sid ot attrs
      = sha1HexOfString (ss ++ "|" ++ sid ++ "|" ++ ot)
    ∧ (match_and_upsert rules_store table ss sid ot attrs now).2
        = sha1HexOfString (ss ++ "|" ++ sid ++ "|" ++ ot)
    ∧ storedIds (match_and_upsert rules_store table ss sid ot attrs now).1 ss sid ot
        = [sha1HexOfString (ss ++ "|" ++ sid ++ "|" ++ ot)] := by
  have h1 : matched_golden_id rules_store ss sid ot attrs
      = sha1HexOfString (ss ++ "|" ++ sid ++ "|" ++ ot) := by
    unfold matched_golden_id
    rw [hnorule]
  have h2 : match_and_upsert rules_store table ss sid ot attrs now
      = (table ++ [inserted_row (matched_golden_id rules_store ss sid ot attrs)
                     ss sid ot attrs now],
         matched_golden_id rules_store ss sid ot attrs) := by
    unfold match_and_upsert upsert_object
    rw [hfresh]
    rfl
  refine ⟨h1, ?_, ?_⟩
  · rw [h2]
    exact h1
  · rw [h2]
    show storedIds (table ++ [inserted_row (matched_golden_id rules_store ss sid ot attrs)
      ss sid ot attrs now]) ss sid ot = _
    rw [storedIds_append, storedIds_nil_of_find?_none hfresh,
      storedIds_inserted, h1]
    rfl

/-- Witness for the amended C6 on an empty store and empty table. -/
theorem fallback_digest_amended_witness :
    matched_golden_id [] "erp" "INV-1" "invoice" exAttrs
      = sha1HexOfString ("erp" ++ "|" ++ "INV-1" ++ "|" ++ "invoice")
    ∧ (match_and_upsert [] [] "erp" "INV-1" "invoice" exAttrs 5).2
        = sha1HexOfString ("erp" ++ "|" ++ "INV-1" ++ "|" ++ "invoice")
    ∧ storedIds (match_and_upsert [] [] "erp" "INV-1" "invoice" exAttrs 5).1
        "erp" "INV-1" "invoice"
        = [sha1HexOfString ("erp" ++ "|" ++ "INV-1" ++ "|" ++ "invoice")] :=
  fallback_digest_amended [] [] "erp" "INV-1" "invoice" exAttrs 5 rfl rfl

/-- C7: under the table's uniqueness invariant, two `match_and_upsert` calls
with identical inputs leave exactly one row for the source tuple; the returned
id of the second call and the stored ids are those left by the first call. -/
theorem upsert_idempotent (rules_store : List IdentityRule)
    (table : List GoldenObject) (ss sid ot : String)
    (attrs : String → Option String) (n1 n2 : Nat)
    (hinv : keyCount table ss sid ot ≤ 1) :
    keyCount (match_and_upsert rules_store
        (match_and_upsert rules_store table ss sid ot attrs n1).1
        ss sid ot attrs n2).1 ss sid ot = 1
    ∧ (match_and_upsert rules_store
        (match_and_upsert rules_store table ss sid ot attrs n1).1
        ss sid ot attrs n2).2
      = (match_and_upsert rules_store table ss sid ot attrs n1).2
    ∧ storedIds (match_and_upsert rules_store
        (match_and_upsert rules_store table ss sid ot attrs n1).1
        ss sid ot attrs n2).1 ss sid ot
      = storedIds (match_and_upsert rules_store table ss sid ot attrs n1).1
          ss sid ot := by
  cases h0 : table.find? (fun r => sameKey r ss sid ot) with
  | none =>
    have e1 : match_and_upsert rules_store table ss sid ot attrs n1
        = (table ++ [inserted_row (matched_golden_id rules_store ss sid ot attrs)
                       ss sid ot attrs n1],
           matched_golden_id rules_store ss sid ot attrs) := by
      unfold match_and_upsert upsert_object
      rw [h0]
      rfl
    rw [e1]
    have hfind2 : (table ++ [inserted_row (matched_golden_id rules_store ss sid ot attrs)
          ss sid ot attrs n1]).find? (fun r => sameKey r ss sid ot)
        = some (inserted_row (matched_golden_id rules_store ss sid ot attrs)
            ss sid ot attrs n1) := by
      rw [List.find?_append, h0]
      simp [List.find?_cons, inserted_row, sameKey_self]
    have e2 : match_and_upsert rules_store
        (table ++ [inserted_row (matched_golden_id rules_store ss sid ot attrs)
          ss sid ot attrs n1]) ss sid ot attrs n2
        = ((table ++ [inserted_row (matched_golden_id rules_store ss sid ot attrs)
              ss sid ot attrs n1]).map (apply_update attrs n2 ss sid ot),
           matched_golden_id rules_store ss sid ot attrs) := by
      unfold match_and_upsert upsert_object
      rw [hfind2]
      rfl
    rw [e2]
    refine ⟨?_, rfl, ?_⟩
    · rw [keyCount_map_update, keyCount_append, keyCount_zero_of_find?_none h0,
        keyCount_inserted]
    · rw [storedIds_map_update]
  | some row =>
    have e1 : match_and_upsert rules_store table ss sid ot attrs n1
        = (table.map (apply_update attrs n1 ss sid ot), row.golden_id) := by
      unfold match_and_upsert upsert_object
      rw [h0]
    rw [e1]
    have hfind2 : (table.map (apply_update attrs n1 ss sid ot)).find?
          (fun r => sameKey r ss sid ot)
        = some (apply_update attrs n1 ss sid ot row) := by
      rw [find?_map_update, h0]
      rfl
    have e2 : match_and_upsert rules_store (table.map (apply_update attrs n1 ss sid ot))
        ss sid ot attrs n2
        = ((table.map (apply_update attrs n1 ss sid ot)).map
            (apply_update attrs n2 ss sid ot),
           (apply_update attrs n1 ss sid ot row).golden_id) := by
      unfold match_and_upsert upsert_object
      rw [hfind2]
    rw [e2]
    have hpos := keyCount_pos_of_find? h0
    refine ⟨?_, golden_id_apply_update attrs n1 ss sid ot row, ?_⟩
    · rw [keyCount_map_update, keyCount_map_update]
      omega
    · rw [storedIds_map_update]

/-- Witness for C7 starting from an empty table. -/
theorem upsert_idempotent_witness :
    keyCount (match_and_upsert []
        (match_and_upsert [] [] "erp" "INV-1" "invoice" exAttrs 1).1
        "erp" "INV-1" "invoice" exAttrs 2).1 "erp" "INV-1" "invoice" = 1
    ∧ (match_and_upsert []
        (match_and_upsert [] [] "erp" "INV-1" "invoice" exAttrs 1).1
        "erp" "INV-1" "invoice" exAttrs 2).2
      = (match_and_upsert [] [] "erp" "INV-1" "invoice" exAttrs 1).2
    ∧ storedIds (match_and_upsert []
        (match_and_upsert [] [] "erp" "INV-1" "invoice" exAttrs 1).1
        "erp" "INV-1" "invoice" exAttrs 2).1 "erp" "INV-1" "invoice"
      = storedIds (match_and_upsert [] [] "erp" "INV-1" "invoice" exAttrs 1).1
          "erp" "INV-1" "invoice" :=
  upsert_idempotent [] [] "erp" "INV-1" "invoice" exAttrs 1 2 (by decide)

/-- C8 counterexample: `is_table_blacklisted` alone does not blacklist
`edna_`-prefixed tables — on an empty pattern list, or a list omitting the
prefix, it returns `false`. -/
theorem blacklist_implicit_cex :
    is_table_blacklisted "edna_objects" [] = false
    ∧ is_table_blacklisted "edna_objects" ["temp_%"] = false := by
  exact ⟨rfl, by decide⟩

/-- C8 amended: `is_table_blacklisted` is a case-insensitive whole-name glob
match with `%` as wildcard over exactly the supplied patterns; the implicit
`edna_%` entry is appended by `scan_source_databases` (`scan_blacklist`), after
which every `edna_`-prefixed table is blacklisted. -/
theorem blacklist_glob_amended :
    is_table_blacklisted "temp_customers" ["temp_%"] = true
    ∧ is_table_blacklisted "customers_temp" ["temp_%"] = false
    ∧ is_table_blacklisted "TEMP_Customers" ["temp_%"] = true
    ∧ (∀ bl, "edna_%" ∈ scan_blacklist bl)
    ∧ (∀ (t : String) (bl : List String) (r : List Char),
        t.data = 'e' :: 'd' :: 'n' :: 'a' :: '_' :: r →
        is_table_blacklisted t (scan_blacklist bl) = true) := by
  refine ⟨by decide, by decide, by decide, ?_, edna_blacklisted_in_scan⟩
  intro bl
  unfold scan_blacklist
  split
  · next hc => simpa using hc
  · exact List.mem_append.mpr (Or.inr (List.mem_singleton.mpr rfl))

/-- Witness for the amended C8: a table beginning with `edna_` is blacklisted
on the scanning path even when the caller's list omits the prefix. -/
theorem blacklist_glob_amended_witness :
    is_table_blacklisted "edna_objects" (scan_blacklist ["temp_%"]) = true :=
  blacklist_glob_amended.2.2.2.2 "edna_objects" ["temp_%"] "objects".data rfl

/-- C9 counterexample: with a registered source database, a scanning pass
issues no statement at all against `scan_run` — no `PENDING` run is created. -/
theorem scan_run_created_cex :
    (scan_source_databases [oneSource] (fun _ => Except.ok []) (Except.ok []) [] 7).run_table
      = []
    ∧ (scan_source_databases [oneSource] (fun _ => Except.ok []) (Except.ok []) [] 7).run_ops
      = [] :=
  ⟨rfl, rfl⟩

/-- C9 amended: only the no-registered-sources fallback path creates a scan
run; there it is created `PENDING` before scanning and closed exactly once —
`SUCCESS` with `total_tables`/`total_rows`, or `FAILED` with the error (which
is re-raised); with registered sources the `scan_run` table is untouched. -/
theorem scan_run_lifecycle_amended :
    (∀ (scanO : SourceDb → Except String (List TableProfile))
       (profiles : List TableProfile) (rt : List ScanRunRow) (now : Nat),
      (scan_source_databases [] scanO (Except.ok profiles) rt now).run_ops
        = [RunOp.create "demo-db" "PENDING",
           RunOp.update rt.length "SUCCESS"
             ⟨some profiles.length, some (profiles.map (fun p => p.row_count)).sum, none⟩]
      ∧ (scan_source_databases [] scanO (Except.ok profiles) rt now).run_table
        = update_scan_run_status
            (rt ++ [⟨rt.length, "demo-db", "PENDING", emptyMetrics, none⟩]) rt.length
            "SUCCESS"
            ⟨some profiles.length, some (profiles.map (fun p => p.row_count)).sum, none⟩
            now
      ∧ (scan_source_databases [] scanO (Except.ok profiles) rt now).raised = none)
    ∧ (∀ (scanO : SourceDb → Except String (List TableProfile)) (e : String)
         (rt : List ScanRunRow) (now : Nat),
      (scan_source_databases [] scanO (Except.error e) rt now).run_ops
        = [RunOp.create "demo-db" "PENDING",
           RunOp.update rt.length "FAILED" ⟨none, none, some e⟩]
      ∧ (scan_source_databases [] scanO (Except.error e) rt now).raised = some e)
    ∧ (∀ (scanO : SourceDb → Except String (List TableProfile))
         (fb : Except String (List TableProfile)) (db : SourceDb)
         (rest : List SourceDb) (rt : List ScanRunRow) (now : Nat),
      (scan_source_databases (db :: rest) scanO fb rt now).run_ops = []
      ∧ (scan_source_databases (db :: rest) scanO fb rt now).run_table = rt) := by
  refine ⟨fun _ _ _ _ => ⟨rfl, rfl, rfl⟩, fun _ _ _ _ => ⟨rfl, rfl⟩,
    fun _ _ _ _ _ _ => ⟨rfl, rfl⟩⟩

end Edna
